import Mathlib

/-!
Shallow embedding of the XP CKPool WebUI server (`app.py`): the snapshot
cache, the in-memory hashrate history, the staleness classification used by
the filtered pool view, and the read-side API handlers (`/api/pool`,
`/api/user`, `/api/search`, `/api/wallet/{w}/workers`, `/api/history/{a}`).

Conventions of the embedding:
* Python dict fields that may be absent or `None` become `Option` fields.
  `u.get(k)` returns `None` both for a missing key and a stored `None`, so a
  single `none` covers both.
* Python truthiness on strings (`if wallet:`) is `none`-or-empty falsy;
  on integers (`if last_ts:`) `none`-or-zero falsy.
* Hashrates are modelled as rationals (`ℚ`).  Every use in the source first
  runs `float(x or 0)` under `try/except` with `0.0` on failure, so a missing,
  zero or unparseable value behaves exactly like `0`; we therefore store
  `Option ℚ` and read it with `getD 0`.
* The ISO string `time.strftime("%Y-%m-%dT%H:%M:%SZ", time.gmtime(ts))` is an
  injective rendering of `ts`; we model the rendered string by the timestamp
  it renders, so the `last_seen` field is `Option Int`.  The source only ever
  tests it for nullness.
* A failed sqlite connection / query (`get_db()` raising, or the `try` blocks
  around each query) is modelled by passing `none` for the store argument.
* SQL over the small tables (`workers_seen`, `wallet_history`) is modelled by
  `List.filter` for `WHERE`, `List.insertionSort` for `ORDER BY`,
  `List.length` for `COUNT(*)` and `drop`/`take` for `OFFSET`/`LIMIT`.
-/

/-- Python truthiness of an optional string: `None` and `""` are falsy. -/
def truthyS : Option String → Bool
  | none => false
  | some s => !(s = "")

/-- Python `a or b` on optional strings: returns `a` when truthy, else `b`
(including when both are falsy, where Python returns the second operand). -/
def pyOrS (a b : Option String) : Option String :=
  if truthyS a then a else b

/-- Python truthiness of an optional integer: `None` and `0` are falsy. -/
def truthyI : Option Int → Bool
  | none => false
  | some n => !(n = 0)

/-- Python `str(s).split('.', 1)[0]`: the part of `s` before the first dot. -/
def userBase (s : String) : String :=
  String.mk (s.toList.takeWhile (fun c => !(c = '.')))

/-- Python `s.lower()` (exact on ASCII, which is all the source compares). -/
def pyLower (s : String) : String :=
  String.mk (s.toList.map Char.toLower)

/-- Python `s.strip()`: drop whitespace from both ends. -/
def pyStrip (s : String) : String :=
  String.mk (((s.toList.dropWhile Char.isWhitespace).reverse.dropWhile
    Char.isWhitespace).reverse)

/-- One wallet record of the snapshot's `users` list (a Python dict produced
by the external parser).  `last_seen_ts` / `last_seen` are the annotation
fields that `api_pool` writes into the dict in place. -/
structure WalletRecord where
  wallet : Option String := none
  address : Option String := none
  user : Option String := none
  worker : Option String := none
  hashrate1m : Option ℚ := none
  hashrate5m : Option ℚ := none
  hashrate1hr : Option ℚ := none
  shares : Option Int := none
  lastshare : Option Int := none
  active_workers : Option (List String) := none
  last_seen_ts : Option Int := none
  last_seen : Option Int := none
  deriving Repr, DecidableEq

/-- Pool-level metrics dict of the snapshot; `block`, `height` and
`bestblockhash` are the keys `api_pool` may write, `extra` stands for the
remaining metrics, copied around untouched. -/
structure PoolInfo where
  block : Option Int := none
  height : Option Int := none
  bestblockhash : Option String := none
  extra : List (String × ℚ) := []
  deriving Repr, DecidableEq

/-- The parser snapshot: `{"pool": ..., "users": [...], "totals": ...}`. -/
structure Snapshot where
  pool : PoolInfo := {}
  users : List WalletRecord := []
  totals : List (String × ℚ) := []
  deriving Repr, DecidableEq

/-- Outcome of the best-effort node RPC block lookup in `api_pool`:
no client configured, `getblockcount` succeeded, `getblockcount` failed but
`getbestblockhash` succeeded, or both calls failed. -/
inductive NodeRes where
  | noRpc
  | blockCount (blk : Int)
  | bestHash (h : String)
  | failBoth
  deriving Repr, DecidableEq

/-- `wallet = u.get("wallet") or u.get("address") or
(u.get("user") and str(u.get("user")).split('.', 1)[0])` in `api_pool`. -/
def walletKey (u : WalletRecord) : Option String :=
  pyOrS u.wallet (pyOrS u.address
    (match u.user with
     | none => none
     | some s => if s = "" then some s else some (userBase s)))

/-- `last_ts = last_map.get(wallet) if wallet else None` in `api_pool`
(`last_map.get` yields `None` for missing keys and `None` values alike). -/
def effLast (lm : String → Option Int) (u : WalletRecord) : Option Int :=
  match walletKey u with
  | some s => if s = "" then none else lm s
  | none => none

/-- `float(u.get("hashrate1m") or 0)` with `0.0` on a parse failure: the
effective hashrate used by the classifier and the sampler. -/
def effHash (u : WalletRecord) : ℚ :=
  u.hashrate1m.getD 0

/-- `isinstance(u.get("active_workers"), list) and len(...) > 0`. -/
def workersNonempty (u : WalletRecord) : Bool :=
  match u.active_workers with
  | some (_ :: _) => true
  | _ => false

/-- The annotation step of `api_pool`: writes
`u["last_seen_ts"] = int(last_ts) if last_ts else None` and
`u["last_seen"] = strftime(..., gmtime(last_seen_ts)) if u["last_seen_ts"]
else None` into the wallet dict (in place in the source). -/
def annotateUser (lm : String → Option Int) (u : WalletRecord) : WalletRecord :=
  let lt := effLast lm u
  let lts : Option Int := if truthyI lt then lt else none
  { u with
    last_seen_ts := lts
    last_seen := if truthyI lts then lts else none }

/-- `u.get("last_seen_ts") is not None and u["last_seen_ts"] >= cutoff`. -/
def lastSeenRecent (cutoff : Int) : Option Int → Bool
  | some t => cutoff ≤ t
  | none => false

/-- The `keep` decision of `api_pool` on an already-annotated record:
recent last-seen, else positive 1-minute hashrate, else a non-empty
`active_workers` list. -/
def keepAnnotated (cutoff : Int) (u : WalletRecord) : Bool :=
  if lastSeenRecent cutoff u.last_seen_ts then true
  else decide (0 < effHash u) || workersNonempty u

/-- Annotation followed by the keep decision: whether `api_pool` surfaces the
wallet record, given the last-seen aggregate `lm` and the cutoff. -/
def poolKeep (lm : String → Option Int) (cutoff : Int) (u : WalletRecord) : Bool :=
  keepAnnotated cutoff (annotateUser lm u)

/-- The best-effort node annotation at the end of `api_pool`: on a successful
`getblockcount` it sets both `block` and `height`; when that raises it tries
`getbestblockhash`; all failures are swallowed. -/
def annotatePool (p : PoolInfo) : NodeRes → PoolInfo
  | NodeRes.noRpc => p
  | NodeRes.blockCount blk => { p with block := some blk, height := some blk }
  | NodeRes.bestHash h => { p with bestblockhash := some h }
  | NodeRes.failBoth => p

/-- GET `/api/pool`.  `timeoutEnv` is the parsed `WORKER_TIMEOUT` (the source
defaults to 300 when unset or unparseable); `store` is the last-seen
aggregate map when the sqlite chain succeeded, `none` when it failed (the
source then uses the empty map `{}`).  Returns the response snapshot paired
with the post-call cached snapshot: the source mutates the wallet dicts (and
the shared `pool` dict) in place and only shallow-copies the outer dict, so
the cached snapshot keeps all users but with the annotations written in. -/
def apiPool (snap : Snapshot) (timeoutEnv : Option Int) (now : Int)
    (store : Option (String → Option Int)) (node : NodeRes) :
    Snapshot × Snapshot :=
  let timeout_s := timeoutEnv.getD 300
  let cutoff := now - max 0 timeout_s
  let lm : String → Option Int :=
    match store with
    | some m => m
    | none => fun _ => none
  let annotated := snap.users.map (annotateUser lm)
  let filtered := annotated.filter (keepAnnotated cutoff)
  let pool2 := annotatePool snap.pool node
  ({ snap with users := filtered, pool := pool2 },
   { snap with users := annotated, pool := pool2 })

example :
    poolKeep (fun _ => some 90) (100 - 300) { wallet := some "a" } = true := by
  decide

example :
    poolKeep (fun _ => some 0) (100 - 300)
      { wallet := some "a", hashrate1m := some 0, active_workers := some [] }
      = false := by
  decide

/-- One row of the `SELECT wallet, MAX(last_seen) ... GROUP BY wallet`
aggregate read by `wallet_last_seen_map` (both columns may be SQL NULL). -/
structure SeenAggRow where
  wallet : Option String := none
  last_seen : Option Int := none
  deriving Repr, DecidableEq

/-- `wallet_last_seen_map`: builds `out[w] = int(ts) if ts is not None else
None`, skipping NULL wallets; later rows overwrite earlier ones, and a `.get`
on the resulting dict collapses a stored `None` and a missing key.  Modelled
directly as the lookup function the dict realises. -/
def walletLastSeenMap (rows : List SeenAggRow) : String → Option Int :=
  fun w =>
    ((rows.filterMap (fun r =>
        match r.wallet with
        | some s => if s = w then some r.last_seen else none
        | none => none)).getLast?).join

-- ===== In-memory hashrate history (24h rolling) =====

/-- `HIST_WINDOW_SEC // max(1, SAMPLE_EVERY_SEC)`: the `maxlen` of each
per-wallet deque in `HISTORY`. -/
def histCapacity (window sample : Nat) : Nat :=
  window / max 1 sample

/-- Appending to a bounded deque (`collections.deque(maxlen=cap)`): the new
element goes to the right and elements are discarded from the left until the
length is within `cap`.  With `cap = 0` the deque stays empty. -/
def histAppend {α : Type} (cap : Nat) (l : List α) (x : α) : List α :=
  if (l ++ [x]).length ≤ cap then l ++ [x]
  else (l ++ [x]).drop ((l ++ [x]).length - cap)

/-- `addr = u.get("wallet") or u.get("address")` in `_bg_sampler`. -/
def samplerAddr (u : WalletRecord) : Option String :=
  pyOrS u.wallet u.address

/-- The per-user body of `_bg_sampler`: skip falsy addresses, else append
`(ts, float(hashrate1m or 0))` to that wallet's bounded series (unparseable
hashrates become `0.0`). -/
def sampleOne (cap : Nat) (ts : Int) (h : String → List (Int × ℚ))
    (u : WalletRecord) : String → List (Int × ℚ) :=
  match samplerAddr u with
  | some a =>
      if a = "" then h
      else fun w => if w = a then histAppend cap (h a) (ts, effHash u) else h w
  | none => h

/-- One tick of `_bg_sampler` over the snapshot's users list. -/
def sampleStep (cap : Nat) (users : List WalletRecord) (ts : Int)
    (hist : String → List (Int × ℚ)) : String → List (Int × ℚ) :=
  users.foldl (sampleOne cap ts) hist

-- ===== Persisted tables =====

/-- One row of the persisted `wallet_history` table (hashrate may be NULL:
the source reads it as `float(r[1] or 0.0)`). -/
structure HistRow where
  wallet : String
  ts : Int
  hashrate : Option ℚ := none
  deriving Repr, DecidableEq

/-- One row of the persisted `workers_seen` table. -/
structure SeenRow where
  wallet : String
  worker : String
  last_seen : Int
  active : Int
  deriving Repr, DecidableEq

/-- `ORDER BY ts ASC` comparison for `wallet_history` rows. -/
def histRowLe (a b : HistRow) : Prop := a.ts ≤ b.ts

instance : DecidableRel histRowLe := fun a b => inferInstanceAs (Decidable (a.ts ≤ b.ts))

instance : IsTotal HistRow histRowLe := ⟨fun a b => Int.le_total a.ts b.ts⟩

instance : IsTrans HistRow histRowLe := ⟨fun _ _ _ => Int.le_trans⟩

/-- `ORDER BY last_seen DESC` comparison for `workers_seen` rows. -/
def seenRowGe (a b : SeenRow) : Prop := b.last_seen ≤ a.last_seen

instance : DecidableRel seenRowGe := fun a b => inferInstanceAs (Decidable (b.last_seen ≤ a.last_seen))

instance : IsTotal SeenRow seenRowGe := ⟨fun a b => Int.le_total b.last_seen a.last_seen⟩

instance : IsTrans SeenRow seenRowGe := ⟨fun _ _ _ h h2 => Int.le_trans h2 h⟩

-- ===== GET /api/history/<addr> =====

/-- GET `/api/history/<addr>`.  `windowArg` is the parsed `window` query
parameter (`none` when absent or unparseable; the source then uses
`6 * 3600`).  `store` is the `wallet_history` table when the sqlite query
chain succeeded; on `none` (any failure in the `try` block) the source falls
back to the in-memory `HISTORY` series, filtered by the same cutoff. -/
def apiHistory (store : Option (List HistRow)) (mem : String → List (Int × ℚ))
    (addr : String) (windowArg : Option Int) (now : Int) : List (Int × ℚ) :=
  let window := windowArg.getD (6 * 3600)
  let cutoff := now - max 60 window
  match store with
  | some tbl =>
      let rows := tbl.filter (fun r => r.wallet = addr && decide (cutoff ≤ r.ts))
      (rows.insertionSort histRowLe).map (fun r => (r.ts, r.hashrate.getD 0))
  | none => (mem addr).filter (fun p => decide (cutoff ≤ p.1))

-- ===== GET /api/wallet/<wallet>/workers =====

/-- `limit = max(1, min(int(request.args.get("limit", 50)), 200))`, with 50
on a parse failure (`none` stands for an absent or unparseable parameter). -/
def walletWorkersLimit : Option Int → Int
  | none => 50
  | some n => max 1 (min n 200)

/-- `offset = max(0, int(request.args.get("offset", 0)))`, with 0 on a parse
failure. -/
def walletWorkersOffset : Option Int → Int
  | none => 0
  | some n => max 0 n

/-- The rows of `workers_seen` matching
`wallet=? AND active=1 AND last_seen>=?` at cutoff `cut`. -/
def workersMatches (tbl : List SeenRow) (w : String) (cut : Int) : List SeenRow :=
  tbl.filter (fun r => r.wallet = w && r.active = 1 && decide (cut ≤ r.last_seen))

/-- GET `/api/wallet/<wallet>/workers`: `(total, workers)` where `total` is
the unpaginated `COUNT(*)` and `workers` the `ORDER BY last_seen DESC LIMIT ?
OFFSET ?` page, both over the same `WHERE` clause.  On a store failure the
source answers `total = 0, workers = []`. -/
def apiWalletWorkers (store : Option (List SeenRow)) (w : String)
    (limitArg offsetArg timeoutEnv : Option Int) (now : Int) :
    Int × List (String × Int) :=
  let limit := walletWorkersLimit limitArg
  let offset := walletWorkersOffset offsetArg
  let timeout_s := timeoutEnv.getD 300
  match store with
  | some tbl =>
      let ms := workersMatches tbl w (now - timeout_s)
      let page := ((ms.insertionSort seenRowGe).drop offset.toNat).take limit.toNat
      ((ms.length : Int), page.map (fun r => (r.worker, r.last_seen)))
  | none => (0, [])

-- ===== GET /api/search =====

/-- Substring test on character lists: `startsWithL n h` is `n` being an
initial segment of `h`. -/
def startsWithL : List Char → List Char → Bool
  | [], _ => true
  | _ :: _, [] => false
  | a :: as, b :: bs => a = b && startsWithL as bs

/-- Python `needle in hay` on strings, as character lists. -/
def containsL (needle : List Char) : List Char → Bool
  | [] => needle.isEmpty
  | c :: t => startsWithL needle (c :: t) || containsL needle t

/-- Python `needle in hay` on strings. -/
def strIn (needle hay : String) : Bool :=
  containsL needle.toList hay.toList

/-- `fields = [(u.get("address") or ""), (u.get("wallet") or ""),
(u.get("user") or ""), (u.get("worker") or "")]` in `api_search`. -/
def searchFields (u : WalletRecord) : List String :=
  [u.address.getD "", u.wallet.getD "", u.user.getD "", u.worker.getD ""]

/-- `any(ql in str(f).lower() for f in fields if f)` with `ql` already
lowercased. -/
def searchHit (ql : String) (u : WalletRecord) : Bool :=
  (searchFields u).any (fun f => !(f = "") && strIn ql (pyLower f))

/-- GET `/api/search`: strip the query; an empty (stripped) query yields no
matches, otherwise filter the snapshot users by a case-insensitive substring
test over address/wallet/user/worker. -/
def apiSearch (qRaw : String) (users : List WalletRecord) : List WalletRecord :=
  let q := pyStrip qRaw
  if q = "" then []
  else users.filter (searchHit (pyLower q))

-- ===== GET /api/user/<wallet> =====

/-- `_find_wallet_row`: first snapshot record whose
`u.get("wallet") or u.get("address")` equals the requested string. -/
def findWalletRow (users : List WalletRecord) (w : String) : Option WalletRecord :=
  users.find? (fun u => pyOrS u.wallet u.address = some w)

/-- GET `/api/user/<wallet>`: `abort(404)` when no row is found, else the
row.  (The source tests `if not row:`, but a matched dict necessarily
carries a `wallet` or `address` key equal to the requested string, hence is a
non-empty, truthy dict, so the test is equivalent to `row is None`.) -/
def apiUser (users : List WalletRecord) (w : String) : Except Nat WalletRecord :=
  match findWalletRow users w with
  | none => Except.error 404
  | some r => Except.ok r

example : strIn "abc" "xxabc123" = true := by decide
example : strIn "abd" "xxabc123" = false := by decide
example :
    apiSearch "ABC" [{ address := some "abc123" }] = [{ address := some "abc123" }] := by
  decide
example : apiSearch "  " [{ address := some "abc123" }] = [] := by decide

-- ===== Spec-side comparison definitions =====

/-- Modelled from the spec: the StalenessClassifier formula of section 4.3,
`isActive = (lastSeenTs is not null AND lastSeenTs >= now - timeoutSeconds)
OR (hashrate1m > 0) OR (activeWorkers is non-empty)`, stated from the spec's
words so it can be compared against the code's keep decision. -/
def specIsActive (lastSeenTs : Option Int) (hr : ℚ) (workers : List String)
    (timeoutSeconds now : Int) : Bool :=
  (match lastSeenTs with
   | some t => decide (now - timeoutSeconds ≤ t)
   | none => false)
  || decide (0 < hr) || !(workers.isEmpty)

/-- Modelled from the spec: the claim C7 match predicate, at least one of the
address/wallet/user/worker fields contains the query as a case-insensitive
substring. -/
def claimSearchMatch (q : String) (u : WalletRecord) : Bool :=
  strIn (pyLower q) (pyLower (u.address.getD "")) ||
  strIn (pyLower q) (pyLower (u.wallet.getD "")) ||
  strIn (pyLower q) (pyLower (u.user.getD "")) ||
  strIn (pyLower q) (pyLower (u.worker.getD ""))

/-- Erase the two annotation fields of a wallet record (used to state which
fields `api_pool` may and may not change in the cached snapshot). -/
def stripSeen (u : WalletRecord) : WalletRecord :=
  { u with last_seen_ts := none, last_seen := none }

-- ===== Shared lemmas =====

theorem effLast_const_none (u : WalletRecord) : effLast (fun _ => none) u = none := by
  unfold effLast
  cases walletKey u with
  | none => rfl
  | some s => by_cases h : s = "" <;> simp [h]

theorem stripSeen_annotateUser (lm : String → Option Int) (u : WalletRecord) :
    stripSeen (annotateUser lm u) = stripSeen u := rfl

theorem effHash_annotateUser (lm : String → Option Int) (u : WalletRecord) :
    effHash (annotateUser lm u) = effHash u := rfl

theorem workersNonempty_annotateUser (lm : String → Option Int) (u : WalletRecord) :
    workersNonempty (annotateUser lm u) = workersNonempty u := rfl

/-- The users list of the `/api/pool` response is the snapshot users filtered
by `poolKeep` and annotated, in snapshot order. -/
theorem apiPool_users_filter (snap : Snapshot) (tEnv : Option Int) (now : Int)
    (lm : String → Option Int) (node : NodeRes) :
    (apiPool snap tEnv now (some lm) node).1.users
      = (snap.users.filter (poolKeep lm (now - max 0 (tEnv.getD 300)))).map
          (annotateUser lm) := by
  unfold apiPool
  simp only [List.filter_map]
  rfl

/-- The post-call cached snapshot holds every user, annotated, in order. -/
theorem apiPool_cached_users (snap : Snapshot) (tEnv : Option Int) (now : Int)
    (store : Option (String → Option Int)) (node : NodeRes) :
    (apiPool snap tEnv now store node).2.users
      = snap.users.map (annotateUser
          (match store with | some m => m | none => fun _ => none)) := rfl

-- ===== Claim theorems =====

/-- Claim C3 (corrected): `api_wallet_workers` clamps the requested limit
into the range [1, 200] — not [10, 200] — with default 50 when the parameter
is absent or unparseable, and clamps the offset to be at least 0 with
default 0. -/
theorem c3_limit_offset_clamp (n : Int) (m : Option Int) :
    walletWorkersLimit none = 50 ∧
    walletWorkersOffset none = 0 ∧
    1 ≤ walletWorkersLimit (some n) ∧
    walletWorkersLimit (some n) ≤ 200 ∧
    walletWorkersLimit (some 0) = 1 ∧
    walletWorkersLimit (some 500) = 200 ∧
    0 ≤ walletWorkersOffset m := by
  refine ⟨rfl, rfl, le_max_left _ _, ?_, by decide, by decide, ?_⟩
  · exact max_le (by decide) (min_le_right _ _)
  · cases m with
    | none => exact le_refl 0
    | some k => exact le_max_left _ _

/-- Claim C3 counterexample: a requested limit of 5 is passed through as 5,
not raised to 10 as the claim's [10, 200] clamp would require. -/
theorem c3_counterexample :
    walletWorkersLimit (some 5) = 5 ∧ ¬ (10 ≤ walletWorkersLimit (some 5)) := by
  decide

/-- Claim C4 counterexample: with a 10-second window and a 30-second sample
interval the per-wallet capacity is `10 / 30 = 0`, so the capacity is not at
least 1 for all configurations. -/
theorem c4_counterexample :
    histCapacity 10 30 = 0 ∧ ¬ (1 ≤ histCapacity 10 30) := by
  decide

theorem histAppend_length_le {α : Type} (cap : Nat) (l : List α) (x : α) :
    (histAppend cap l x).length ≤ cap := by
  unfold histAppend
  split
  · next h => exact h
  · next h => simp only [List.length_drop]; omega

theorem histAppend_full {α : Type} (cap : Nat) (l : List α) (x : α)
    (hc : 1 ≤ cap) (hl : l.length = cap) :
    histAppend cap l x = l.tail ++ [x] := by
  unfold histAppend
  have h : ¬ ((l ++ [x]).length ≤ cap) := by
    simp only [List.length_append, List.length_cons, List.length_nil, hl]
    omega
  have h2 : (l ++ [x]).length - cap = 1 := by
    simp only [List.length_append, List.length_cons, List.length_nil, hl]
    omega
  rw [if_neg h, h2]
  cases l with
  | nil => simp at hl; omega
  | cons a t => simp

theorem sampleOne_length_le (cap : Nat) (ts : Int)
    (h : String → List (Int × ℚ)) (u : WalletRecord)
    (hb : ∀ w, (h w).length ≤ cap) :
    ∀ w, (sampleOne cap ts h u w).length ≤ cap := by
  intro w
  unfold sampleOne
  cases samplerAddr u with
  | none => exact hb w
  | some a =>
      by_cases he : a = ""
      · simp only [he, if_pos rfl]
        exact hb w
      · simp only [if_neg he]
        by_cases hw : w = a
        · simp only [hw, if_pos rfl]
          exact histAppend_length_le cap (h a) (ts, effHash u)
        · simp only [if_neg hw]
          exact hb w

theorem sampleStep_length_le (cap : Nat) (users : List WalletRecord) (ts : Int) :
    ∀ (hist : String → List (Int × ℚ)), (∀ w, (hist w).length ≤ cap) →
      ∀ w, (sampleStep cap users ts hist w).length ≤ cap := by
  induction users with
  | nil => intro hist h w; exact h w
  | cons u rest ih =>
      intro hist h w
      exact ih (sampleOne cap ts hist u) (sampleOne_length_le cap ts hist u h) w

/-- Claim C4 (corrected): the per-wallet capacity is
`windowSeconds / max(1, sampleIntervalSeconds)` — at least 1 only when the
window is at least the (clamped) sample interval, 2880 in the default
configuration, 0 when the window is shorter than the sample interval — a
full series with positive capacity evicts exactly its oldest point on
append (FIFO), and one sampler tick keeps every series within capacity. -/
theorem c4_capacity_bound_fifo (window sample cap : Nat) (l : List (Int × ℚ))
    (x : Int × ℚ) (users : List WalletRecord) (ts : Int)
    (hist : String → List (Int × ℚ)) :
    histCapacity window sample = window / max 1 sample ∧
    (max 1 sample ≤ window → 1 ≤ histCapacity window sample) ∧
    histCapacity 86400 30 = 2880 ∧
    (histAppend cap l x).length ≤ cap ∧
    (1 ≤ cap → l.length = cap → histAppend cap l x = l.tail ++ [x]) ∧
    ((∀ w, (hist w).length ≤ cap) →
      ∀ w, (sampleStep cap users ts hist w).length ≤ cap) := by
  refine ⟨rfl, ?_, by decide, histAppend_length_le cap l x,
    histAppend_full cap l x, sampleStep_length_le cap users ts hist⟩
  intro h
  exact Nat.one_le_div_iff (by omega) |>.mpr h

/-- Claim C4 witness: a full 2-capacity series drops exactly its oldest
point on append, and a sampler tick over an empty user list respects the
bound. -/
theorem c4_witness :
    histAppend 2 [((0 : Int), (1 : ℚ)), ((1 : Int), (2 : ℚ))] ((2 : Int), (3 : ℚ))
        = [((1 : Int), (2 : ℚ)), ((2 : Int), (3 : ℚ))] ∧
    (sampleStep 2 [] 0 (fun _ => []) "a").length ≤ 2 := by
  have h := c4_capacity_bound_fifo 86400 30 2
    [((0 : Int), (1 : ℚ)), ((1 : Int), (2 : ℚ))] ((2 : Int), (3 : ℚ))
    [] 0 (fun _ => [])
  exact ⟨h.2.2.2.2.1 (by decide) (by decide),
    h.2.2.2.2.2 (fun w => Nat.zero_le 2) "a"⟩

theorem annotateUser_last_seen_ts (lm : String → Option Int) (u : WalletRecord) :
    (annotateUser lm u).last_seen_ts
      = match effLast lm u with
        | some t => if t = 0 then none else some t
        | none => none := by
  simp only [annotateUser]
  cases he : effLast lm u with
  | none => simp [he]
  | some t =>
      by_cases ht : t = 0 <;> simp [he, truthyI, ht]

/-- Claim C10 (confirmed): a persisted last-seen aggregate of exactly 0 is
treated like a wallet with no last-seen record at all: both annotations are
null and the keep decision falls through to the live signals only. -/
theorem c10_zero_last_seen (lm : String → Option Int) (u : WalletRecord)
    (cutoff : Int) (h : effLast lm u = some 0) :
    annotateUser lm u = annotateUser (fun _ => none) u ∧
    (annotateUser lm u).last_seen_ts = none ∧
    (annotateUser lm u).last_seen = none ∧
    poolKeep lm cutoff u = poolKeep (fun _ => none) cutoff u ∧
    poolKeep lm cutoff u = (decide (0 < effHash u) || workersNonempty u) := by
  have ha : annotateUser lm u = { u with last_seen_ts := none, last_seen := none } := by
    simp [annotateUser, h, truthyI]
  have hb : annotateUser (fun _ => none) u
      = { u with last_seen_ts := none, last_seen := none } := by
    simp [annotateUser, effLast_const_none, truthyI]
  refine ⟨ha.trans hb.symm, by rw [ha], by rw [ha], ?_, ?_⟩
  · unfold poolKeep
    rw [ha, hb]
  · unfold poolKeep keepAnnotated
    rw [ha]
    rfl

/-- Claim C10 witness: with a persisted aggregate of 0 everywhere, a wallet
with positive hashrate is kept through the live signal, and the annotation
written for it is null. -/
theorem c10_witness :
    poolKeep (fun _ => some 0) (-200)
        { wallet := some "w", hashrate1m := some 3 } = true ∧
    (annotateUser (fun _ => some 0)
        { wallet := some "w", hashrate1m := some 3 }).last_seen_ts = none := by
  have h := c10_zero_last_seen (fun _ => some 0)
    { wallet := some "w", hashrate1m := some 3 } (-200) (by decide)
  refine ⟨?_, h.2.1⟩
  rw [h.2.2.2.2]
  decide

/-- Claim C5 counterexample: with `now = 100`, the default timeout 300 and a
persisted last-seen aggregate of exactly 0, the spec formula classifies the
wallet active (`0 ≥ now - timeout`), but the code drops it: the zero
aggregate is annotated as null, and with zero hashrate and an empty worker
list the wallet is excluded from the filtered view. -/
theorem c5_counterexample :
    specIsActive (some 0) 0 [] 300 100 = true ∧
    poolKeep (fun _ => some 0) (100 - max 0 300)
      { wallet := some "w", hashrate1m := some 0, active_workers := some [] }
      = false ∧
    (apiPool
        { users := [{ wallet := some "w", hashrate1m := some 0,
                      active_workers := some [] }] }
        (some 300) 100 (some (fun _ => some 0)) NodeRes.noRpc).1.users = [] := by
  decide

/-- Claim C5 (corrected): the filtered pool view keeps a wallet iff its
persisted lastSeenTs is non-null, nonzero and at least the cutoff
`now - max(0, timeout)`, or its effective 1-minute hashrate is positive, or
its active-worker list is non-empty; the response users list is exactly the
snapshot users passing this test, annotated, in snapshot order. -/
theorem c5_keep_characterisation (lm : String → Option Int) (cutoff : Int)
    (u : WalletRecord) (snap : Snapshot) (tEnv : Option Int) (now : Int)
    (node : NodeRes) :
    poolKeep lm cutoff u =
      ((match effLast lm u with
        | some t => !(t = 0) && decide (cutoff ≤ t)
        | none => false)
       || decide (0 < effHash u) || workersNonempty u) ∧
    (apiPool snap tEnv now (some lm) node).1.users
      = (snap.users.filter (poolKeep lm (now - max 0 (tEnv.getD 300)))).map
          (annotateUser lm) := by
  refine ⟨?_, apiPool_users_filter snap tEnv now lm node⟩
  unfold poolKeep keepAnnotated
  rw [annotateUser_last_seen_ts]
  have h1 : effHash (annotateUser lm u) = effHash u := rfl
  have h2 : workersNonempty (annotateUser lm u) = workersNonempty u := rfl
  rw [h1, h2]
  cases he : effLast lm u with
  | none => simp [lastSeenRecent]
  | some t =>
      by_cases ht : t = 0
      · simp [ht, lastSeenRecent]
      · by_cases hc : cutoff ≤ t
        · simp [ht, hc, lastSeenRecent]
        · simp [ht, hc, lastSeenRecent]

/-- Claim C1 counterexample: with the persisted store failing, a snapshot
whose only wallet has no hashrate and no workers yields an empty degraded
users list, not the raw snapshot's users. -/
theorem c1_counterexample :
    ¬ ((apiPool { users := [{ wallet := some "w" }] } none 1000 none
          NodeRes.noRpc).1.users
        = ({ users := [{ wallet := some "w" }] } : Snapshot).users) := by
  decide

/-- Claim C1 (corrected): when every persisted-store call fails, `/api/pool`
still answers (the handler is total), the last-seen annotations are computed
from the empty map, and the users list is the snapshot's users filtered by
the live signals alone — positive 1-minute hashrate or a non-empty
active-worker list — rather than the raw unfiltered list; pool metrics and
totals are passed through. -/
theorem c1_degraded_pool (snap : Snapshot) (tEnv : Option Int) (now : Int)
    (node : NodeRes) :
    (apiPool snap tEnv now none node).1.users
      = (snap.users.filter
          (fun u => decide (0 < effHash u) || workersNonempty u)).map
          (annotateUser (fun _ => none)) ∧
    (apiPool snap tEnv now none node).1.pool = annotatePool snap.pool node ∧
    (apiPool snap tEnv now none node).1.totals = snap.totals := by
  refine ⟨?_, rfl, rfl⟩
  show (snap.users.map (annotateUser (fun _ => none))).filter
      (keepAnnotated (now - max 0 (tEnv.getD 300))) = _
  rw [List.filter_map]
  congr 1
  apply List.filter_congr
  intro u _
  show keepAnnotated _ (annotateUser (fun _ => none) u) = _
  unfold keepAnnotated
  rw [annotateUser_last_seen_ts, effLast_const_none]
  rfl

/-- Claim C2 counterexample: a pool-view call with a reachable store writes
the last-seen annotation into the cached snapshot's wallet record: the
cached record afterwards differs from the record before the call. -/
theorem c2_counterexample :
    ¬ ((apiPool { users := [{ wallet := some "w" }] } none 600
          (some (fun _ => some 500)) NodeRes.noRpc).2.users
        = [{ wallet := some "w" }]) := by
  decide

/-- Claim C2 (corrected): `api_pool` mutates the published snapshot's wallet
records in place — it writes the derived `last_seen_ts`/`last_seen` fields
into them — but only those two fields: every other field, the record count
and the order of the cached users list are unchanged. -/
theorem c2_cache_frame (snap : Snapshot) (tEnv : Option Int) (now : Int)
    (store : Option (String → Option Int)) (node : NodeRes) :
    (apiPool snap tEnv now store node).2.users.map stripSeen
      = snap.users.map stripSeen ∧
    (apiPool snap tEnv now store node).2.users.length = snap.users.length := by
  constructor
  · rw [apiPool_cached_users, List.map_map]
    apply List.map_congr_left
    intro u _
    exact stripSeen_annotateUser _ u
  · rw [apiPool_cached_users]
    exact List.length_map _ _

theorem pyLower_ne_empty {q : String} (h : ¬ q = "") : ¬ pyLower q = "" := by
  intro hc
  apply h
  have hdata : (pyLower q).data = ("" : String).data := by rw [hc]
  simp only [pyLower, String.toList] at hdata
  have : q.data = [] := by
    cases hq : q.data with
    | nil => rfl
    | cons c t => rw [hq] at hdata; simp at hdata
  cases q
  simp_all

theorem strIn_empty_hay {needle : String} (h : ¬ needle = "") :
    strIn needle "" = false := by
  show needle.toList.isEmpty = false
  cases hn : needle.toList with
  | nil =>
      exfalso
      apply h
      have : needle.data = [] := hn
      cases needle
      simp_all
  | cons c t => rfl

theorem searchHit_eq_claim (q : String) (hq : ¬ q = "") (u : WalletRecord) :
    searchHit (pyLower q) u = claimSearchMatch q u := by
  have key : ∀ f : String,
      (!(f = "") && strIn (pyLower q) (pyLower f)) = strIn (pyLower q) (pyLower f) := by
    intro f
    by_cases hf : f = ""
    · subst hf
      have h0 : pyLower ("" : String) = "" := rfl
      rw [h0, strIn_empty_hay (pyLower_ne_empty hq)]
      simp
    · simp [hf]
  unfold searchHit claimSearchMatch searchFields
  simp only [List.any_cons, List.any_nil, Bool.or_false]
  rw [key, key, key, key]
  simp [Bool.or_assoc]

/-- Claim C7 (confirmed): a stripped-empty query returns no matches, and a
non-empty query returns exactly the snapshot records with at least one of
address/wallet/user/worker containing the query as a case-insensitive
substring, in snapshot order. -/
theorem c7_search_semantics (qRaw : String) (users : List WalletRecord) :
    apiSearch qRaw users
      = (if pyStrip qRaw = "" then []
         else users.filter (claimSearchMatch (pyStrip qRaw))) := by
  unfold apiSearch
  by_cases h : pyStrip qRaw = ""
  · rw [if_pos h, if_pos h]
  · rw [if_neg h, if_neg h]
    apply List.filter_congr
    intro u _
    exact searchHit_eq_claim (pyStrip qRaw) h u

/-- Claim C9 (confirmed): `/api/user/<wallet>` matches the requested string
by exact, case-sensitive equality against each record's
`wallet or address` value, returns the first matching record, and answers
404 exactly when no record matches. -/
theorem c9_user_lookup (users : List WalletRecord) (w : String) :
    (apiUser users w = Except.error 404 ↔
      ∀ u ∈ users, ¬ (pyOrS u.wallet u.address = some w)) ∧
    (∀ r, apiUser users w = Except.ok r →
      pyOrS r.wallet r.address = some w ∧
      ∃ pre post, users = pre ++ r :: post ∧
        ∀ v ∈ pre, ¬ (pyOrS v.wallet v.address = some w)) := by
  constructor
  · constructor
    · intro herr
      unfold apiUser findWalletRow at herr
      cases hf : users.find? (fun u => pyOrS u.wallet u.address = some w) with
      | none =>
          intro u hu
          have := List.find?_eq_none.mp hf u hu
          simpa using this
      | some r => rw [hf] at herr; cases herr
    · intro hall
      unfold apiUser findWalletRow
      cases hf : users.find? (fun u => pyOrS u.wallet u.address = some w) with
      | none => rfl
      | some r =>
          exfalso
          have hr := List.mem_of_find?_eq_some hf
          have hp := List.find?_some hf
          exact absurd (of_decide_eq_true hp) (hall r hr)
  · intro r hok
    unfold apiUser findWalletRow at hok
    cases hf : users.find? (fun u => pyOrS u.wallet u.address = some w) with
    | none => rw [hf] at hok; cases hok
    | some r' =>
        rw [hf] at hok
        cases hok
        obtain ⟨hp, pre, post, heq, hpre⟩ := List.find?_eq_some.mp hf
        refine ⟨of_decide_eq_true hp, pre, post, heq, ?_⟩
        intro v hv
        have := hpre v hv
        simpa using this

/-- Claim C9 witness: the lookup is case-sensitive — a wallet stored as
"abc" is not found under "ABC". -/
theorem c9_witness :
    apiUser [{ wallet := some "abc" }] "ABC" = Except.error 404 :=
  (c9_user_lookup [{ wallet := some "abc" }] "ABC").1.mpr (by decide)

/-- Claim C6 (confirmed): `/api/history/<addr>` queries the persistent store
first and returns that wallet's rows with `ts >= now - max(60, window)` in
ascending `ts` order; on any store failure it falls back to the in-memory
series filtered by the same cutoff, preserving the (chronological) order of
the retained points — the 60-second window floor applies on both paths, and
the window defaults to 21600 seconds. -/
theorem c6_history_paths (tbl : List HistRow) (mem : String → List (Int × ℚ))
    (addr : String) (wArg : Option Int) (now : Int) :
    (∀ p ∈ apiHistory (some tbl) mem addr wArg now,
        now - max 60 (wArg.getD 21600) ≤ p.1) ∧
    List.Sorted (fun p q : Int × ℚ => p.1 ≤ q.1)
      (apiHistory (some tbl) mem addr wArg now) ∧
    (∀ p ∈ apiHistory (some tbl) mem addr wArg now,
        ∃ r ∈ tbl, r.wallet = addr ∧ p = (r.ts, r.hashrate.getD 0)) ∧
    apiHistory none mem addr wArg now
      = (mem addr).filter
          (fun p => decide (now - max 60 (wArg.getD 21600) ≤ p.1)) ∧
    (∀ p ∈ apiHistory none mem addr wArg now,
        now - max 60 (wArg.getD 21600) ≤ p.1) ∧
    (List.Sorted (fun p q : Int × ℚ => p.1 ≤ q.1) (mem addr) →
      List.Sorted (fun p q : Int × ℚ => p.1 ≤ q.1)
        (apiHistory none mem addr wArg now)) := by
  have hrow : ∀ p ∈ apiHistory (some tbl) mem addr wArg now,
      ∃ r, (r ∈ tbl ∧ (r.wallet = addr ∧ now - max 60 (wArg.getD 21600) ≤ r.ts))
        ∧ p = (r.ts, r.hashrate.getD 0) := by
    intro p hp
    obtain ⟨r, hr, hfr⟩ := List.mem_map.mp hp
    rw [List.mem_insertionSort] at hr
    have hr2 := List.mem_filter.mp hr
    refine ⟨r, ⟨hr2.1, ?_⟩, hfr.symm⟩
    have := hr2.2
    simp only [Bool.and_eq_true, decide_eq_true_eq] at this
    exact this
  refine ⟨?_, ?_, ?_, rfl, ?_, ?_⟩
  · intro p hp
    obtain ⟨r, ⟨_, _, hts⟩, hpr⟩ := hrow p hp
    rw [hpr]
    exact hts
  · have hs := List.sorted_insertionSort histRowLe
      ((tbl.filter (fun r => r.wallet = addr
        && decide (now - max 60 (wArg.getD 21600) ≤ r.ts))))
    show List.Sorted _ (List.map _ _)
    exact List.pairwise_map.mpr (hs.imp (fun h => h))
  · intro p hp
    obtain ⟨r, ⟨hmem, haddr, _⟩, hpr⟩ := hrow p hp
    exact ⟨r, hmem, haddr, hpr⟩
  · intro p hp
    have := (List.mem_filter.mp hp).2
    simpa using this
  · intro hsorted
    exact hsorted.filter _

theorem c6_witness :
    (100 : Int) - max 60 ((none : Option Int).getD 21600)
        ≤ (((100 : Int), (5 : ℚ)) : Int × ℚ).1 ∧
    List.Sorted (fun p q : Int × ℚ => p.1 ≤ q.1)
      (apiHistory none (fun _ => [((50 : Int), (2 : ℚ))]) "a" none 100) := by
  have h := c6_history_paths [{ wallet := "a", ts := 100, hashrate := some 5 }]
    (fun _ => [((50 : Int), (2 : ℚ))]) "a" none 100
  exact ⟨h.1 ((100 : Int), (5 : ℚ)) (by decide), h.2.2.2.2.2 (by decide)⟩

/-- Claim C8 (confirmed): `/api/wallet/<wallet>/workers` returns at most
`limit` entries from the page starting at `offset` of the matching rows
sorted by `last_seen` descending, every returned entry comes from a row of
`workers_seen` matching the wallet/active/staleness filter, and `total` is
the full count of matching rows, independent of the limit and offset
values. -/
theorem c8_workers_pagination (tbl : List SeenRow) (w : String)
    (la oa te la2 oa2 : Option Int) (now : Int) :
    (apiWalletWorkers (some tbl) w la oa te now).2.length
        ≤ (walletWorkersLimit la).toNat ∧
    List.Sorted (fun a b : String × Int => b.2 ≤ a.2)
      (apiWalletWorkers (some tbl) w la oa te now).2 ∧
    (apiWalletWorkers (some tbl) w la oa te now).1
        = ((workersMatches tbl w (now - te.getD 300)).length : Int) ∧
    (apiWalletWorkers (some tbl) w la2 oa2 te now).1
        = (apiWalletWorkers (some tbl) w la oa te now).1 ∧
    (∀ p ∈ (apiWalletWorkers (some tbl) w la oa te now).2,
        ∃ r ∈ workersMatches tbl w (now - te.getD 300),
          p = (r.worker, r.last_seen)) := by
  refine ⟨?_, ?_, rfl, rfl, ?_⟩
  · show (List.map _ _).length ≤ _
    rw [List.length_map, List.length_take]
    exact min_le_left _ _
  · have hs := List.sorted_insertionSort seenRowGe
      (workersMatches tbl w (now - te.getD 300))
    have hpage : List.Pairwise seenRowGe
        ((((workersMatches tbl w (now - te.getD 300)).insertionSort
            seenRowGe).drop (walletWorkersOffset oa).toNat).take
            (walletWorkersLimit la).toNat) :=
      List.Pairwise.sublist
        ((List.take_sublist _ _).trans (List.drop_sublist _ _)) hs
    show List.Sorted _ (List.map _ _)
    exact List.pairwise_map.mpr (hpage.imp (fun h => h))
  · intro p hp
    obtain ⟨r, hr, hfr⟩ := List.mem_map.mp hp
    have hr2 : r ∈ (workersMatches tbl w (now - te.getD 300)).insertionSort
        seenRowGe :=
      ((List.take_sublist _ _).trans (List.drop_sublist _ _)).mem hr
    rw [List.mem_insertionSort] at hr2
    exact ⟨r, hr2, hfr.symm⟩

theorem c8_witness :
    ∃ r ∈ workersMatches
        [{ wallet := "w", worker := "k1", last_seen := 100, active := 1 },
         { wallet := "w", worker := "k2", last_seen := 50, active := 1 }]
        "w" (100 - 300),
      (("k2", (50 : Int)) : String × Int) = (r.worker, r.last_seen) :=
  (c8_workers_pagination
    [{ wallet := "w", worker := "k1", last_seen := 100, active := 1 },
     { wallet := "w", worker := "k2", last_seen := 50, active := 1 }]
    "w" none none none none none 100).2.2.2.2
    ("k2", (50 : Int)) (by decide)
